import Mathlib

/-!
# Verification of the voxtus transcript pipeline

Shallow embedding of the voxtus repository's configuration resolver,
format renderers and pipeline orchestrator, with theorems settling the
specification claims.  Rust `f64` second values are modelled as exact
rationals (`ℚ`); Rust strings are modelled as Lean `String` / `List Char`.
-/

/-! ## Character and string helpers (models of the Rust std functions used) -/

/-- Model of Rust `char::to_ascii_lowercase` (also the ASCII-relevant part of
`char::to_lowercase` as used on format tokens). -/
def asciiLowerChar (c : Char) : Char :=
  if 'A' ≤ c ∧ c ≤ 'Z' then Char.ofNat (c.toNat + 32) else c

/-- ASCII lowercasing of a character list. -/
def asciiLower (l : List Char) : List Char :=
  l.map asciiLowerChar

/-- Model of Rust `str::to_lowercase` (ASCII-relevant part, sufficient for the
format tokens `txt`/`json`/`srt`/`vtt`). -/
def toLowerStr (s : String) : String :=
  String.mk (asciiLower s.data)

/-- Model of Rust `str::trim` on character lists: drop leading and trailing
whitespace. -/
def rustTrim (l : List Char) : List Char :=
  (l.dropWhile Char.isWhitespace).rdropWhile Char.isWhitespace

/-- Model of Rust `str::trim` on strings. -/
def rustTrimStr (s : String) : String :=
  String.mk (rustTrim s.data)

/-- Model of Rust `str::eq_ignore_ascii_case`. -/
def eqIgnoreAsciiCase (a b : List Char) : Bool :=
  asciiLower a == asciiLower b

/-- Model of Rust `str::split(',')`: split a character list at every comma,
keeping empty pieces (`"a,,b"` gives three pieces, `""` gives one). -/
def splitComma : List Char → List (List Char)
  | [] => [[]]
  | c :: rest =>
    match splitComma rest with
    | [] => [[]]
    | t :: ts => if c = ',' then [] :: t :: ts else (c :: t) :: ts

/-- The character for a decimal digit (`0 ≤ d ≤ 9` in every use). -/
def digitChar (d : Nat) : Char :=
  Char.ofNat (48 + d)

/-- Fuel-driven decimal digit expansion, most significant digit first. -/
def decimalDigitsAux : Nat → Nat → List Char
  | 0, _ => []
  | fuel + 1, n =>
    if n < 10 then [digitChar n]
    else decimalDigitsAux fuel (n / 10) ++ [digitChar (n % 10)]

/-- Decimal representation of a natural number as characters, the model of
formatting an unsigned integer in Rust. -/
def decimalDigits (n : Nat) : List Char :=
  decimalDigitsAux (n + 1) n

/-- Left-pad a character list with `'0'` up to width `w`, the model of Rust's
`{:02}` / `{:03}` format specifiers. -/
def padZero (w : Nat) (l : List Char) : List Char :=
  List.replicate (w - l.length) '0' ++ l

/-- Join a list of strings with a separator, the model of Rust's
`Vec::join` / iterator `join`. -/
def joinSep (sep : String) : List String → String
  | [] => ""
  | [x] => x
  | x :: y :: rest => x ++ sep ++ joinSep sep (y :: rest)

/-! ## Data model (from `src/config.rs`, `src/error.rs`, `src/formats/mod.rs`) -/

/-- `OutputFormat` enum from `src/config.rs`. -/
inductive OutputFormat where
  | txt
  | json
  | srt
  | vtt
  deriving DecidableEq, Repr

/-- `Error` enum from `src/error.rs` (the variants the claims exercise). -/
inductive Error where
  | invalidFormat (token : String)
  | multipleFormatsWithStdout
  | fileNotFound (path : String)
  | downloadFailed (msg : String)
  | transcriptionFailed (msg : String)
  | invalidModel (name : String)
  | userAborted
  deriving DecidableEq, Repr

/-- `OutputFormat::extension` from `src/config.rs`. -/
def OutputFormat.extension : OutputFormat → String
  | .txt => "txt"
  | .json => "json"
  | .srt => "srt"
  | .vtt => "vtt"

/-- `OutputFormat::from_str` from `src/config.rs`: lowercase, then match. -/
def OutputFormat.fromStr (s : String) : Except Error OutputFormat :=
  match toLowerStr s with
  | "txt" => .ok .txt
  | "json" => .ok .json
  | "srt" => .ok .srt
  | "vtt" => .ok .vtt
  | _ => .error (.invalidFormat s)

/-- `WhisperModel` struct from `src/config.rs`. -/
structure WhisperModel where
  name : String
  description : String
  params : String
  vram : String
  languages : String
  deriving DecidableEq, Repr

/-- `AVAILABLE_MODELS` from `src/config.rs`: the catalog of eleven models. -/
def AVAILABLE_MODELS : List WhisperModel :=
  [ ⟨"tiny", "Fastest model, 39M parameters", "39M", "~1GB", "multilingual"⟩,
    ⟨"tiny.en", "English-only tiny model", "39M", "~1GB", "English only"⟩,
    ⟨"base", "Smaller balanced model, 74M parameters", "74M", "~1GB", "multilingual"⟩,
    ⟨"base.en", "English-only base model", "74M", "~1GB", "English only"⟩,
    ⟨"small", "Default balanced model, 244M parameters", "244M", "~2GB", "multilingual"⟩,
    ⟨"small.en", "English-only small model", "244M", "~2GB", "English only"⟩,
    ⟨"medium", "Good accuracy model, 769M parameters", "769M", "~5GB", "multilingual"⟩,
    ⟨"medium.en", "English-only medium model", "769M", "~5GB", "English only"⟩,
    ⟨"large", "Highest accuracy model, 1550M parameters", "1550M", "~10GB", "multilingual"⟩,
    ⟨"large-v2", "Improved large model, 1550M parameters", "1550M", "~10GB", "multilingual"⟩,
    ⟨"large-v3", "Latest large model, 1550M parameters", "1550M", "~10GB", "multilingual"⟩ ]

/-! ## Configuration resolver (from `src/config.rs`) -/

/-- The token list computed inside `parse_formats`: split on commas, trim each
piece, discard empty pieces. -/
def formatTokens (s : String) : List (List Char) :=
  ((splitComma s.data).map rustTrim).filter (fun t => t ≠ [])

/-- Sequence `OutputFormat::from_str` over the tokens, stopping at the first
error — the model of `collect::<Result<Vec<_>, _>>()`. -/
def collectFormats : List (List Char) → Except Error (List OutputFormat)
  | [] => .ok []
  | t :: ts =>
    match OutputFormat.fromStr (String.mk t) with
    | .error e => .error e
    | .ok f =>
      match collectFormats ts with
      | .error e => .error e
      | .ok fs => .ok (f :: fs)

/-- `parse_formats` from `src/config.rs`. -/
def parseFormats (formatStr : String) (stdoutMode : Bool) :
    Except Error (List OutputFormat) :=
  match collectFormats (formatTokens formatStr) with
  | .error e => .error e
  | .ok formats =>
    if stdoutMode ∧ formats.length > 1 then .error .multipleFormatsWithStdout
    else .ok formats

/-- `validate_model` from `src/config.rs`: normalize `"large"`, then check the
catalog. -/
def validateModel (model : String) : Except Error String :=
  let normalized := if model = "large" then "large-v3" else model
  if AVAILABLE_MODELS.any (fun m => m.name == normalized) then .ok normalized
  else .error (.invalidModel model)

/-- `strip_txt_extension` from `src/config.rs`: remove one trailing `".txt"`
if present (model of `str::strip_suffix`). -/
def stripTxtExtension (name : String) : String :=
  if (".txt".data).isSuffixOf name.data then
    String.mk (name.data.take (name.data.length - 4))
  else name

/-- `get_final_name` from `src/config.rs`: custom name takes precedence over
title, but only when non-empty. -/
def getFinalName (title : String) (customName : Option String) : String :=
  match customName with
  | some name => if name ≠ "" then name else title
  | none => title

/-- `get_output_name` from `src/main.rs`: the base name actually used when
emitting files — `custom_name` if present (even empty), else the title. -/
def getOutputName (title : String) (customName : Option String) : String :=
  customName.getD title

/-! ## Transcript model (from `src/formats/mod.rs`) -/

/-- `Segment` from `src/formats/mod.rs`; `f64` seconds modelled as `ℚ`. -/
structure Segment where
  start : ℚ
  stop : ℚ
  text : String
  deriving DecidableEq

/-- `Metadata` from `src/formats/mod.rs`. -/
structure Metadata where
  title : String
  source : String
  duration : Option ℚ
  model : String
  language : Option String
  deriving DecidableEq

/-- `Transcript` from `src/formats/mod.rs`. -/
structure Transcript where
  segments : List Segment
  metadata : Metadata
  deriving DecidableEq

/-! ## Timestamp and segment renderers (from `src/formats/{srt,vtt,txt,json}.rs`)

Rust `f64` values are modelled as exact rationals.  On the nonnegative inputs
the claims quantify over, `seconds.floor() as u64` is `⌊q⌋.toNat`,
`seconds.fract()` is `q - ⌊q⌋`, and `x.round()` (half away from zero) on a
nonnegative `x` is `⌊x + 1/2⌋`. -/

/-- `format_timestamp` from `src/formats/srt.rs` (comma separator). -/
def srtFormatTimestamp (seconds : ℚ) : String :=
  let totalSeconds : Nat := (⌊seconds⌋).toNat
  let hours := totalSeconds / 3600
  let minutes := totalSeconds % 3600 / 60
  let secs := totalSeconds % 60
  let milliseconds := min (⌊(seconds - ⌊seconds⌋) * 1000 + 1/2⌋).toNat 999
  String.mk (padZero 2 (decimalDigits hours) ++ ':' ::
    padZero 2 (decimalDigits minutes) ++ ':' ::
    padZero 2 (decimalDigits secs) ++ ',' ::
    padZero 3 (decimalDigits milliseconds))

/-- `format_timestamp` from `src/formats/vtt.rs` (dot separator). -/
def vttFormatTimestamp (seconds : ℚ) : String :=
  let totalSeconds : Nat := (⌊seconds⌋).toNat
  let hours := totalSeconds / 3600
  let minutes := totalSeconds % 3600 / 60
  let secs := totalSeconds % 60
  let milliseconds := min (⌊(seconds - ⌊seconds⌋) * 1000 + 1/2⌋).toNat 999
  String.mk (padZero 2 (decimalDigits hours) ++ ':' ::
    padZero 2 (decimalDigits minutes) ++ ':' ::
    padZero 2 (decimalDigits secs) ++ '.' ::
    padZero 3 (decimalDigits milliseconds))

/-- Model of Rust's `{:.2}` display of a nonnegative `f64`: the value rounded
to two decimals, rendered `intpart.dd`. -/
def formatF64TwoDecimals (q : ℚ) : String :=
  let hundredths : Nat := (⌊q * 100 + 1/2⌋).toNat
  String.mk (decimalDigits (hundredths / 100) ++ '.' ::
    padZero 2 (decimalDigits (hundredths % 100)))

/-- `format_segment` from `src/formats/txt.rs`: `"[{:.2} - {:.2}]: {}"`, the
text emitted verbatim. -/
def txtFormatSegment (segment : Segment) : String :=
  "[" ++ formatF64TwoDecimals segment.start ++ " - " ++
    formatF64TwoDecimals segment.stop ++ "]: " ++ segment.text

/-- `format_transcript` from `src/formats/txt.rs`: lines joined by `"\n"`. -/
def txtFormatTranscript (segments : List Segment) : String :=
  joinSep "\n" (segments.map txtFormatSegment)

/-- `format_segment` from `src/formats/srt.rs`: index line, timestamp line,
trimmed text. -/
def srtFormatSegment (segment : Segment) (index : Nat) : String :=
  String.mk (decimalDigits index) ++ "\n" ++
    srtFormatTimestamp segment.start ++ " --> " ++
    srtFormatTimestamp segment.stop ++ "\n" ++ rustTrimStr segment.text

/-- `format_transcript` from `src/formats/srt.rs`: enumerated blocks joined by
blank lines. -/
def srtFormatTranscript (segments : List Segment) : String :=
  joinSep "\n\n" (segments.enum.map (fun p => srtFormatSegment p.2 (p.1 + 1)))

/-- `format_segment` from `src/formats/vtt.rs`: cue with trimmed text. -/
def vttFormatSegment (segment : Segment) : String :=
  vttFormatTimestamp segment.start ++ " --> " ++
    vttFormatTimestamp segment.stop ++ "\n" ++ rustTrimStr segment.text

/-- `format_metadata` from `src/formats/vtt.rs`: the five NOTE blocks joined
by blank lines. -/
def vttFormatMetadata (metadata : Metadata) : String :=
  joinSep "\n\n"
    [ "NOTE Title\n" ++ metadata.title,
      "NOTE Source\n" ++ metadata.source,
      "NOTE Duration\n" ++
        (match metadata.duration with
         | some d => vttFormatTimestamp d
         | none => "unknown"),
      "NOTE Language\n" ++ metadata.language.getD "unknown",
      "NOTE Model\n" ++ metadata.model ]

/-- `format_transcript` from `src/formats/vtt.rs`: header, metadata notes and
cues joined by blank lines. -/
def vttFormatTranscript (segments : List Segment) (metadata : Metadata) : String :=
  joinSep "\n\n" ("WEBVTT" :: vttFormatMetadata metadata ::
    segments.map vttFormatSegment)

/-- `JsonSegment` from `src/formats/json.rs`. -/
structure JsonSegment where
  id : Nat
  start : ℚ
  stop : ℚ
  text : String
  deriving DecidableEq

/-- `JsonMetadata` from `src/formats/json.rs`. -/
structure JsonMetadata where
  title : String
  source : String
  duration : Option ℚ
  model : String
  language : String
  deriving DecidableEq

/-- `JsonOutput` from `src/formats/json.rs`. -/
structure JsonOutput where
  transcript : List JsonSegment
  metadata : JsonMetadata
  deriving DecidableEq

/-- `to_json_segments` from `src/formats/json.rs`: 1-based ids, text copied
verbatim. -/
def toJsonSegments (segments : List Segment) : List JsonSegment :=
  segments.enum.map (fun p => ⟨p.1 + 1, p.2.start, p.2.stop, p.2.text⟩)

/-- `to_json_metadata` from `src/formats/json.rs`: language defaults to
`"en"`. -/
def toJsonMetadata (metadata : Metadata) : JsonMetadata :=
  ⟨metadata.title, metadata.source, metadata.duration, metadata.model,
    metadata.language.getD "en"⟩

/-- The `JsonOutput` value built by `format_transcript` in
`src/formats/json.rs` before serde serialization. -/
def jsonFormatOutput (segments : List Segment) (metadata : Metadata) : JsonOutput :=
  ⟨toJsonSegments segments, toJsonMetadata metadata⟩

/-! ## Pipeline orchestrator (from `src/main.rs`)

The filesystem is modelled as a partial map from path strings to contents,
`Path::join` as string concatenation with `"/"`, and the interactive stdin
prompt as an oracle giving, for the path being asked about, the response
line (`none` models a failed `read_line`).  The renderer dispatch
(`to_txt`/`to_json`/`to_srt`/`to_vtt`) is abstracted as a `render` argument:
the emission control flow is independent of the rendered content. -/

/-- Rust `response.trim().eq_ignore_ascii_case("y")` from `output_transcript`. -/
def affirmative (response : String) : Bool :=
  eqIgnoreAsciiCase (rustTrim response.data) "y".data

/-- The target path built by `output_transcript` for one format. -/
def outputPath (outputDir baseName : String) (fmt : OutputFormat) : String :=
  outputDir ++ "/" ++ baseName ++ "." ++ fmt.extension

/-- The per-format loop of `output_transcript` from `src/main.rs`.  Returns
the outcome, the final filesystem, and the lines printed to stdout. -/
def emitLoop (render : OutputFormat → String) (outputDir baseName : String)
    (overwriteFiles stdoutMode : Bool) (prompt : String → Option String) :
    List OutputFormat → (String → Option String) → List String →
    Except Error Unit × (String → Option String) × List String
  | [], fs, out => (.ok (), fs, out)
  | fmt :: rest, fs, out =>
    let content := render fmt
    if stdoutMode then
      emitLoop render outputDir baseName overwriteFiles stdoutMode prompt rest fs
        (out ++ [content])
    else
      let path := outputPath outputDir baseName fmt
      let write := fun (fs' : String → Option String) =>
        emitLoop render outputDir baseName overwriteFiles stdoutMode prompt rest
          (fun q => if q = path then some content else fs' q) out
      if (fs path).isSome ∧ overwriteFiles = false then
        match prompt path with
        | none => (.error .userAborted, fs, out)
        | some response =>
          if affirmative response then write fs
          else (.error .userAborted, fs, out)
      else write fs

/-- `output_transcript` from `src/main.rs`: compute the base name via
`get_output_name`, then emit every requested format in order. -/
def outputTranscript (render : OutputFormat → String) (title : String)
    (customName : Option String) (formats : List OutputFormat)
    (outputDir : String) (overwriteFiles stdoutMode : Bool)
    (prompt : String → Option String) (fs : String → Option String) :
    Except Error Unit × (String → Option String) × List String :=
  emitLoop render outputDir (getOutputName title customName) overwriteFiles
    stdoutMode prompt formats fs []

/-- The stages of `process` from `src/main.rs`, in order. -/
inductive Stage where
  | acquisition
  | transcription
  | emission
  | keepAudio
  deriving DecidableEq, Repr

/-- `process` from `src/main.rs`: acquire/convert, checkpoint, transcribe,
checkpoint, emit, optionally keep the audio.  The external collaborators are
abstracted as argument functions; `flag1`/`flag2` are the values read from
`shutdown_requested()` at the two checkpoints.  The second component records
which stages ran. -/
def processPipeline (acquire : Except Error (String × String)) (flag1 : Bool)
    (transcribeF : String → String → Except Error Transcript) (flag2 : Bool)
    (emitF : Transcript → Except Error Unit) (keepAudioFlag : Bool)
    (copyAudio : Except Error Unit) : Except Error Unit × List Stage :=
  match acquire with
  | .error e => (.error e, [.acquisition])
  | .ok (audioPath, title) =>
    if flag1 then (.ok (), [.acquisition])
    else
      match transcribeF audioPath title with
      | .error e => (.error e, [.acquisition, .transcription])
      | .ok transcript =>
        if flag2 then (.ok (), [.acquisition, .transcription])
        else
          match emitF transcript with
          | .error e => (.error e, [.acquisition, .transcription, .emission])
          | .ok _ =>
            if keepAudioFlag then
              match copyAudio with
              | .error e =>
                (.error e, [.acquisition, .transcription, .emission, .keepAudio])
              | .ok _ =>
                (.ok (), [.acquisition, .transcription, .emission, .keepAudio])
            else (.ok (), [.acquisition, .transcription, .emission])

/-! ## Spec-side description of `parse_formats` (for the refinement claim C2)

`parseFormatsSpec` follows the specification's words: trim and discard empty
tokens, map each token case-insensitively, fail with `InvalidFormat` on the
first unrecognized token, then reject multiple formats in stdout mode. -/

/-- The case-insensitive token table of the specification. -/
def formatOfTokenSpec (t : String) : Option OutputFormat :=
  if toLowerStr t = "txt" then some .txt
  else if toLowerStr t = "json" then some .json
  else if toLowerStr t = "srt" then some .srt
  else if toLowerStr t = "vtt" then some .vtt
  else none

/-- The specification's description of `parse_formats`. -/
def parseFormatsSpec (formatStr : String) (stdoutMode : Bool) :
    Except Error (List OutputFormat) :=
  let toks := formatTokens formatStr
  match toks.find? (fun t => (formatOfTokenSpec (String.mk t)).isNone) with
  | some bad => .error (.invalidFormat (String.mk bad))
  | none =>
    let fmts := toks.filterMap (fun t => formatOfTokenSpec (String.mk t))
    if stdoutMode ∧ fmts.length > 1 then .error .multipleFormatsWithStdout
    else .ok fmts

/-! ## Lemmas about decimal digit rendering -/

theorem digitChar_isDigit : ∀ d, d < 10 → (digitChar d).isDigit = true := by
  decide

theorem decimalDigitsAux_isDigit :
    ∀ fuel n, ∀ c ∈ decimalDigitsAux fuel n, c.isDigit = true := by
  intro fuel
  induction fuel with
  | zero => intro n c hc; simp [decimalDigitsAux] at hc
  | succ f ih =>
    intro n c hc
    rw [decimalDigitsAux] at hc
    by_cases h : n < 10
    · rw [if_pos h] at hc
      simp only [List.mem_singleton] at hc
      exact hc ▸ digitChar_isDigit n h
    · rw [if_neg h] at hc
      rcases List.mem_append.mp hc with h1 | h2
      · exact ih (n / 10) c h1
      · simp only [List.mem_singleton] at h2
        exact h2 ▸ digitChar_isDigit (n % 10) (Nat.mod_lt n (by omega))

theorem decimalDigits_isDigit (n : Nat) :
    ∀ c ∈ decimalDigits n, c.isDigit = true :=
  decimalDigitsAux_isDigit (n + 1) n

theorem decimalDigitsAux_length_one (fuel n : Nat) (hf : 0 < fuel)
    (hn : n < 10) : (decimalDigitsAux fuel n).length = 1 := by
  cases fuel with
  | zero => omega
  | succ f => rw [decimalDigitsAux, if_pos hn]; rfl

theorem decimalDigitsAux_length_le_two (fuel n : Nat) (hf : n < fuel)
    (hn : n < 100) : (decimalDigitsAux fuel n).length ≤ 2 := by
  cases fuel with
  | zero => omega
  | succ f =>
    rw [decimalDigitsAux]
    by_cases h : n < 10
    · rw [if_pos h]; simp
    · rw [if_neg h]
      have h1 : (decimalDigitsAux f (n / 10)).length = 1 :=
        decimalDigitsAux_length_one f (n / 10) (by omega) (by omega)
      simp [h1]

theorem decimalDigitsAux_length_le_three (fuel n : Nat) (hf : n < fuel)
    (hn : n < 1000) : (decimalDigitsAux fuel n).length ≤ 3 := by
  cases fuel with
  | zero => omega
  | succ f =>
    rw [decimalDigitsAux]
    by_cases h : n < 10
    · rw [if_pos h]; simp
    · rw [if_neg h]
      have h1 : (decimalDigitsAux f (n / 10)).length ≤ 2 :=
        decimalDigitsAux_length_le_two f (n / 10) (by omega) (by omega)
      simp only [List.length_append, List.length_singleton]
      omega

theorem decimalDigits_length_le_two (n : Nat) (hn : n < 100) :
    (decimalDigits n).length ≤ 2 :=
  decimalDigitsAux_length_le_two (n + 1) n (by omega) hn

theorem decimalDigits_length_le_three (n : Nat) (hn : n < 1000) :
    (decimalDigits n).length ≤ 3 :=
  decimalDigitsAux_length_le_three (n + 1) n (by omega) hn

theorem padZero_length (w : Nat) (l : List Char) (h : l.length ≤ w) :
    (padZero w l).length = w := by
  simp [padZero]
  omega

theorem mem_padZero_decimalDigits (w n : Nat) :
    ∀ c ∈ padZero w (decimalDigits n), c.isDigit = true := by
  intro c hc
  rcases List.mem_append.mp hc with h1 | h2
  · rw [List.eq_of_mem_replicate h1]; decide
  · exact decimalDigits_isDigit n c h2

theorem count_padZero_decimalDigits (w n : Nat) (c : Char)
    (hc : c.isDigit = false) : (padZero w (decimalDigits n)).count c = 0 := by
  rw [List.count_eq_zero]
  intro hmem
  rw [mem_padZero_decimalDigits w n c hmem] at hc
  exact Bool.noConfusion hc

/-- The character list of a rendered `HH:MM:SS{sep}mmm` timestamp. -/
def renderTs (h m s ms : Nat) (sep : Char) : List Char :=
  padZero 2 (decimalDigits h) ++ ':' :: padZero 2 (decimalDigits m) ++
    ':' :: padZero 2 (decimalDigits s) ++ sep :: padZero 3 (decimalDigits ms)

theorem count_renderTs (h m s ms : Nat) (sep c : Char)
    (hc : c.isDigit = false) (hcolon : c ≠ ':') :
    (renderTs h m s ms sep).count c = if c = sep then 1 else 0 := by
  have e2 : ∀ n, (padZero 2 (decimalDigits n)).count c = 0 := fun n =>
    count_padZero_decimalDigits 2 n c hc
  have e3 : (padZero 3 (decimalDigits ms)).count c = 0 :=
    count_padZero_decimalDigits 3 ms c hc
  simp only [renderTs, List.count_append, List.count_cons, e2, e3]
  by_cases hsep : c = sep
  · subst hsep
    simp [hcolon, Ne.symm hcolon]
  · simp [hcolon, Ne.symm hcolon, hsep, Ne.symm hsep]

theorem mem_renderTs (h m s ms : Nat) (sep : Char) :
    ∀ c ∈ renderTs h m s ms sep, c.isDigit = true ∨ c = ':' ∨ c = sep := by
  intro c hc
  unfold renderTs at hc
  rcases List.mem_append.mp hc with h1 | h1
  · rcases List.mem_append.mp h1 with h2 | h2
    · rcases List.mem_append.mp h2 with h3 | h3
      · exact Or.inl (mem_padZero_decimalDigits _ _ _ h3)
      · rcases List.mem_cons.mp h3 with h4 | h4
        · exact Or.inr (Or.inl h4)
        · exact Or.inl (mem_padZero_decimalDigits _ _ _ h4)
    · rcases List.mem_cons.mp h2 with h3 | h3
      · exact Or.inr (Or.inl h3)
      · exact Or.inl (mem_padZero_decimalDigits _ _ _ h3)
  · rcases List.mem_cons.mp h1 with h2 | h2
    · exact Or.inr (Or.inr h2)
    · exact Or.inl (mem_padZero_decimalDigits _ _ _ h2)

/-- C1: for every rational seconds value in `[0, 100000)`, the SRT and VTT
timestamp renderers produce `HH:MM:SS{sep}mmm` — two digit characters per
time field and three for milliseconds — where the minutes and seconds fields
are the residues (`< 60`) from floor-division of the integer seconds, the
milliseconds are the fractional part times 1000 rounded to nearest and
clamped to at most 999 (hence `< 1000`), SRT uses exactly one comma and no
dot, and VTT uses exactly one dot and no comma. -/
theorem c1_timestamp_renderers_shape (q : ℚ) (_h0 : 0 ≤ q) (h1 : q < 100000) :
    ∃ h m s ms : Nat,
      m < 60 ∧ s < 60 ∧ ms < 1000 ∧
      h = (⌊q⌋).toNat / 3600 ∧ m = (⌊q⌋).toNat % 3600 / 60 ∧
      s = (⌊q⌋).toNat % 60 ∧
      ms = min (⌊(q - ⌊q⌋) * 1000 + 1/2⌋).toNat 999 ∧
      (srtFormatTimestamp q).data = renderTs h m s ms ',' ∧
      (vttFormatTimestamp q).data = renderTs h m s ms '.' ∧
      (padZero 2 (decimalDigits h)).length = 2 ∧
      (padZero 2 (decimalDigits m)).length = 2 ∧
      (padZero 2 (decimalDigits s)).length = 2 ∧
      (padZero 3 (decimalDigits ms)).length = 3 ∧
      (∀ c ∈ renderTs h m s ms ',', c.isDigit = true ∨ c = ':' ∨ c = ',') ∧
      (∀ c ∈ renderTs h m s ms '.', c.isDigit = true ∨ c = ':' ∨ c = '.') ∧
      (srtFormatTimestamp q).data.count ',' = 1 ∧
      (srtFormatTimestamp q).data.count '.' = 0 ∧
      (vttFormatTimestamp q).data.count '.' = 1 ∧
      (vttFormatTimestamp q).data.count ',' = 0 := by
  have hfloor : ⌊q⌋ < 100000 := by
    rw [Int.floor_lt]
    exact_mod_cast h1
  have ht : (⌊q⌋).toNat < 100000 := by omega
  have hh : (⌊q⌋).toNat / 3600 < 100 := by omega
  have hm : (⌊q⌋).toNat % 3600 / 60 < 60 := by omega
  have hs : (⌊q⌋).toNat % 60 < 60 := by omega
  have hms : min (⌊(q - ⌊q⌋) * 1000 + 1/2⌋).toNat 999 < 1000 := by omega
  refine ⟨(⌊q⌋).toNat / 3600, (⌊q⌋).toNat % 3600 / 60, (⌊q⌋).toNat % 60,
    min (⌊(q - ⌊q⌋) * 1000 + 1/2⌋).toNat 999,
    hm, hs, hms, rfl, rfl, rfl, rfl, rfl, rfl,
    padZero_length 2 _ (decimalDigits_length_le_two _ hh),
    padZero_length 2 _ (decimalDigits_length_le_two _ (by omega)),
    padZero_length 2 _ (decimalDigits_length_le_two _ (by omega)),
    padZero_length 3 _ (decimalDigits_length_le_three _ hms),
    fun c hc => mem_renderTs _ _ _ _ _ c hc,
    fun c hc => mem_renderTs _ _ _ _ _ c hc, ?_, ?_, ?_, ?_⟩
  · show (renderTs _ _ _ _ ',').count ',' = 1
    rw [count_renderTs _ _ _ _ ',' ',' (by decide) (by decide)]
    simp
  · show (renderTs _ _ _ _ ',').count '.' = 0
    rw [count_renderTs _ _ _ _ ',' '.' (by decide) (by decide)]
    simp
  · show (renderTs _ _ _ _ '.').count '.' = 1
    rw [count_renderTs _ _ _ _ '.' '.' (by decide) (by decide)]
    simp
  · show (renderTs _ _ _ _ '.').count ',' = 0
    rw [count_renderTs _ _ _ _ '.' ',' (by decide) (by decide)]
    simp

theorem c1_timestamp_renderers_shape_witness :
    (0 : ℚ) ≤ mkRat 3661123 1000 ∧ (mkRat 3661123 1000 : ℚ) < 100000 ∧
    (∃ h m s ms : Nat,
      m < 60 ∧ s < 60 ∧ ms < 1000 ∧
      h = (⌊(mkRat 3661123 1000 : ℚ)⌋).toNat / 3600 ∧
      m = (⌊(mkRat 3661123 1000 : ℚ)⌋).toNat % 3600 / 60 ∧
      s = (⌊(mkRat 3661123 1000 : ℚ)⌋).toNat % 60 ∧
      ms = min (⌊((mkRat 3661123 1000 : ℚ) - ⌊(mkRat 3661123 1000 : ℚ)⌋) * 1000 + 1/2⌋).toNat 999 ∧
      (srtFormatTimestamp (mkRat 3661123 1000)).data = renderTs h m s ms ',' ∧
      (vttFormatTimestamp (mkRat 3661123 1000)).data = renderTs h m s ms '.' ∧
      (padZero 2 (decimalDigits h)).length = 2 ∧
      (padZero 2 (decimalDigits m)).length = 2 ∧
      (padZero 2 (decimalDigits s)).length = 2 ∧
      (padZero 3 (decimalDigits ms)).length = 3 ∧
      (∀ c ∈ renderTs h m s ms ',', c.isDigit = true ∨ c = ':' ∨ c = ',') ∧
      (∀ c ∈ renderTs h m s ms '.', c.isDigit = true ∨ c = ':' ∨ c = '.') ∧
      (srtFormatTimestamp (mkRat 3661123 1000)).data.count ',' = 1 ∧
      (srtFormatTimestamp (mkRat 3661123 1000)).data.count '.' = 0 ∧
      (vttFormatTimestamp (mkRat 3661123 1000)).data.count '.' = 1 ∧
      (vttFormatTimestamp (mkRat 3661123 1000)).data.count ',' = 0) :=
  ⟨by decide, by decide,
    c1_timestamp_renderers_shape (mkRat 3661123 1000) (by decide) (by decide)⟩

/-! ## Lemmas about `strip_txt_extension` -/

theorem stripTxtExtension_of_suffix (pre : List Char) (s : String)
    (hs : s.data = pre ++ ".txt".data) : stripTxtExtension s = String.mk pre := by
  unfold stripTxtExtension
  rw [if_pos]
  · rw [hs]
    congr 1
    have hlen : (pre ++ ".txt".data).length - 4 = pre.length := by
      simp [List.length_append]
    rw [hlen, List.take_left]
  · rw [List.isSuffixOf_iff_suffix, hs]
    exact ⟨pre, rfl⟩

theorem stripTxtExtension_of_not_suffix (s : String)
    (hs : ¬ ".txt".data <:+ s.data) : stripTxtExtension s = s := by
  unfold stripTxtExtension
  rw [if_neg]
  rw [List.isSuffixOf_iff_suffix]
  exact hs

/-- C3 counterexample: `strip_txt_extension` is not idempotent — on
`"a.txt.txt"` one application gives `"a.txt"` and a second application gives
`"a"`. -/
theorem c3_strip_txt_not_idempotent_counterexample :
    stripTxtExtension (stripTxtExtension "a.txt.txt") ≠
      stripTxtExtension "a.txt.txt" ∧
    stripTxtExtension "a.txt.txt" = "a.txt" ∧
    stripTxtExtension "a.txt" = "a" := by
  refine ⟨?_, ?_, ?_⟩ <;> decide

/-- C3 amended: `strip_txt_extension` is idempotent on every string that does
not end in `".txt.txt"`, and stripping `x ++ ".txt"` recovers `x` whenever `x`
does not already end in `".txt"`. -/
theorem c3_strip_txt_amended (s : String) :
    ((".txt.txt".data).isSuffixOf s.data = false →
      stripTxtExtension (stripTxtExtension s) = stripTxtExtension s) ∧
    ((".txt".data).isSuffixOf s.data = false →
      stripTxtExtension (s ++ ".txt") = s) := by
  constructor
  · intro h8
    have h8s : ¬ ".txt.txt".data <:+ s.data := by
      rw [← List.isSuffixOf_iff_suffix, h8]
      exact Bool.noConfusion
    by_cases h4 : ".txt".data <:+ s.data
    · obtain ⟨pre, hpre⟩ := h4
      have hstrip : stripTxtExtension s = String.mk pre :=
        stripTxtExtension_of_suffix pre s hpre.symm
      rw [hstrip]
      apply stripTxtExtension_of_not_suffix
      intro ⟨pre2, hpre2⟩
      apply h8s
      refine ⟨pre2, ?_⟩
      have : (".txt.txt".data : List Char) = ".txt".data ++ ".txt".data := rfl
      rw [this, ← List.append_assoc]
      show (pre2 ++ ".txt".data) ++ ".txt".data = s.data
      rw [hpre2]
      exact hpre
    · rw [stripTxtExtension_of_not_suffix s h4,
        stripTxtExtension_of_not_suffix s h4]
  · intro h4
    have hdata : (s ++ ".txt").data = s.data ++ ".txt".data := rfl
    rw [stripTxtExtension_of_suffix s.data (s ++ ".txt") hdata]

theorem c3_strip_txt_amended_witness :
    ((".txt.txt".data).isSuffixOf "abc".data = false ∧
      stripTxtExtension (stripTxtExtension "abc") = stripTxtExtension "abc") ∧
    ((".txt".data).isSuffixOf "abc".data = false ∧
      stripTxtExtension ("abc" ++ ".txt") = "abc") :=
  ⟨⟨by decide, (c3_strip_txt_amended "abc").1 (by decide)⟩,
    ⟨by decide, (c3_strip_txt_amended "abc").2 (by decide)⟩⟩

/-! ## C5: output base name used during emission -/

/-- C5: the emission path's `get_output_name` (in `src/main.rs`) returns a
present-but-empty custom name as-is, while the documented and unit-tested
`get_final_name` (in `src/config.rs`) falls back to the title — the
behaviours diverge at `custom_name = Some("")`. -/
theorem c5_empty_custom_name_divergence :
    getOutputName "video" (some "") = "" ∧
    getFinalName "video" (some "") = "video" ∧
    getOutputName "video" (some "") ≠ getFinalName "video" (some "") :=
  ⟨rfl, rfl, by decide⟩

/-! ## C6: model validation -/

/-- C6: `validate_model` maps `"large"` to `"large-v3"`, returns each other
catalog name unchanged, and rejects every non-catalog name with
`InvalidModel(name)`. -/
theorem c6_validate_model :
    validateModel "large" = .ok "large-v3" ∧
    (∀ n ∈ (["tiny", "tiny.en", "base", "base.en", "small", "small.en",
        "medium", "medium.en", "large-v2", "large-v3"] : List String),
      validateModel n = .ok n) ∧
    (∀ n : String, n ∉ AVAILABLE_MODELS.map (fun m => m.name) →
      validateModel n = .error (.invalidModel n)) := by
  refine ⟨rfl, ?_, ?_⟩
  · intro n hn
    fin_cases hn <;> rfl
  · intro n hn
    have hne : n ≠ "large" := by
      intro h
      exact hn (h ▸ (by decide : ("large" : String) ∈
        AVAILABLE_MODELS.map (fun m => m.name)))
    unfold validateModel
    rw [if_neg hne, if_neg]
    intro hany
    obtain ⟨m, hm, hbeq⟩ := List.any_eq_true.mp hany
    rw [beq_iff_eq] at hbeq
    exact hn (List.mem_map.mpr ⟨m, hm, hbeq⟩)

theorem c6_validate_model_witness :
    validateModel "tiny" = .ok "tiny" ∧
    validateModel "bogus" = .error (.invalidModel "bogus") :=
  ⟨(c6_validate_model).2.1 "tiny" (by decide),
    (c6_validate_model).2.2 "bogus" (by decide)⟩

/-! ## Lemmas about `parse_formats` -/

theorem fromStr_eq_spec (s : String) :
    OutputFormat.fromStr s =
      match formatOfTokenSpec s with
      | some f => .ok f
      | none => .error (.invalidFormat s) := by
  unfold OutputFormat.fromStr formatOfTokenSpec
  split <;> simp_all

theorem collectFormats_eq_spec (l : List (List Char)) :
    collectFormats l =
      match l.find? (fun t => (formatOfTokenSpec (String.mk t)).isNone) with
      | some bad => .error (.invalidFormat (String.mk bad))
      | none => .ok (l.filterMap (fun t => formatOfTokenSpec (String.mk t))) := by
  induction l with
  | nil => rfl
  | cons t ts ih =>
    unfold collectFormats
    rw [fromStr_eq_spec]
    cases hft : formatOfTokenSpec (String.mk t) with
    | none =>
      simp [List.find?_cons, hft]
    | some f =>
      rw [ih]
      cases hf2 : ts.find? (fun t => (formatOfTokenSpec (String.mk t)).isNone) with
      | none => simp [List.find?_cons, hft, hf2, List.filterMap_cons]
      | some bad => simp [List.find?_cons, hft, hf2]

theorem length_filterMap_of_isSome {α β : Type} (f : α → Option β)
    (l : List α) (h : ∀ a ∈ l, (f a).isSome = true) :
    (l.filterMap f).length = l.length := by
  induction l with
  | nil => rfl
  | cons a as ih =>
    cases hfa : f a with
    | none =>
      have := h a (List.mem_cons_self a as)
      rw [hfa] at this
      simp at this
    | some b =>
      rw [List.filterMap_cons, hfa]
      simp only [List.length_cons]
      rw [ih (fun x hx => h x (List.mem_cons_of_mem a hx))]

/-- C2: `parse_formats` behaves exactly as described — split on commas, trim,
discard empty tokens, map tokens case-insensitively, fail with
`InvalidFormat` on the first unrecognized token, fail with
`MultipleFormatsWithStdout` when stdout mode keeps more than one format —
and an empty token list is accepted as `Ok([])`. -/
theorem c2_parse_formats_described (s : String) (b : Bool) :
    parseFormats s b = parseFormatsSpec s b ∧
    (formatTokens s = [] → parseFormats s b = .ok []) := by
  have hmain : parseFormats s b = parseFormatsSpec s b := by
    unfold parseFormats parseFormatsSpec
    rw [collectFormats_eq_spec]
    cases hf : (formatTokens s).find?
        (fun t => (formatOfTokenSpec (String.mk t)).isNone) <;> simp [hf]
  refine ⟨hmain, fun hempty => ?_⟩
  rw [hmain]
  unfold parseFormatsSpec
  rw [hempty]
  simp

theorem c2_parse_formats_described_witness :
    parseFormats " , " true = .ok [] :=
  (c2_parse_formats_described " , " true).2 (by decide)

/-- C10: `parse_formats` does not deduplicate — when every token is valid the
result lists one format per token occurrence in input order, the result
length equals the token count, and in stdout mode any token list longer than
one (duplicates included) is rejected with `MultipleFormatsWithStdout`. -/
theorem c10_parse_formats_no_dedup (s : String)
    (hvalid : ∀ t ∈ formatTokens s,
      (formatOfTokenSpec (String.mk t)).isSome = true) :
    parseFormats s false =
      .ok ((formatTokens s).filterMap (fun t => formatOfTokenSpec (String.mk t))) ∧
    ((formatTokens s).filterMap (fun t => formatOfTokenSpec (String.mk t))).length =
      (formatTokens s).length ∧
    ((formatTokens s).length > 1 →
      parseFormats s true = .error .multipleFormatsWithStdout) := by
  have hfind : (formatTokens s).find?
      (fun t => (formatOfTokenSpec (String.mk t)).isNone) = none := by
    rw [List.find?_eq_none]
    intro t ht
    have hv := hvalid t ht
    cases hopt : formatOfTokenSpec (String.mk t) with
    | none => rw [hopt] at hv; simp at hv
    | some f => simp [hopt]
  have heq := collectFormats_eq_spec (formatTokens s)
  rw [hfind] at heq
  simp only [] at heq
  have heq2 : collectFormats (formatTokens s) =
      .ok ((formatTokens s).filterMap (fun t => formatOfTokenSpec (String.mk t))) :=
    heq
  have hlen := length_filterMap_of_isSome
    (fun t => formatOfTokenSpec (String.mk t)) (formatTokens s) hvalid
  refine ⟨?_, hlen, fun hgt => ?_⟩
  · unfold parseFormats
    rw [heq2]
    simp
  · unfold parseFormats
    rw [heq2]
    simp [hlen, hgt]

theorem c10_parse_formats_no_dedup_witness :
    parseFormats "txt,txt" false = .ok [.txt, .txt] ∧
    parseFormats "txt,txt" true = .error .multipleFormatsWithStdout := by
  have h := c10_parse_formats_no_dedup "txt,txt" (by decide)
  exact ⟨h.1.trans rfl, h.2.2 (by decide)⟩

/-! ## Lemmas about `str::trim` and the C4 claim -/

theorem rustTrim_idem (l : List Char) : rustTrim (rustTrim l) = rustTrim l := by
  unfold rustTrim
  have hdw : List.dropWhile Char.isWhitespace
      ((List.dropWhile Char.isWhitespace l).rdropWhile Char.isWhitespace) =
      (List.dropWhile Char.isWhitespace l).rdropWhile Char.isWhitespace := by
    rw [List.dropWhile_eq_self_iff]
    intro hl
    have hpre : (List.dropWhile Char.isWhitespace l).rdropWhile Char.isWhitespace <+:
        List.dropWhile Char.isWhitespace l :=
      List.rdropWhile_prefix Char.isWhitespace (List.dropWhile Char.isWhitespace l)
    have hml : 0 < (List.dropWhile Char.isWhitespace l).length :=
      Nat.lt_of_lt_of_le hl hpre.length_le
    rw [List.get_eq_getElem, List.IsPrefix.getElem hpre hl]
    have hnot := List.dropWhile_get_zero_not Char.isWhitespace l hml
    simpa using hnot
  rw [hdw, List.rdropWhile_idempotent]

theorem rustTrimStr_idem (s : String) :
    rustTrimStr (rustTrimStr s) = rustTrimStr s :=
  congrArg String.mk (rustTrim_idem s.data)

/-- C4 counterexample: the Txt renderer does not trim — a segment whose text
is `" hi "` is emitted with the surrounding whitespace intact, and the Json
segment's text field likewise carries the raw text. -/
theorem c4_txt_json_do_not_trim_counterexample :
    txtFormatSegment ⟨0, 5, " hi "⟩ = "[0.00 - 5.00]:  hi " ∧
    rustTrimStr " hi " = "hi" ∧
    txtFormatSegment ⟨0, 5, " hi "⟩ ≠
      txtFormatSegment ⟨0, 5, rustTrimStr " hi "⟩ ∧
    (toJsonSegments [⟨0, 5, " hi "⟩]).map (fun s => s.text) = [" hi "] := by
  refine ⟨?_, ?_, ?_, ?_⟩
  · with_unfolding_all decide
  · decide
  · with_unfolding_all decide
  · rfl

/-- C4 amended: only the Srt and Vtt renderers trim the segment text on
emission (rendering a segment equals rendering its trimmed copy), while the
Txt and Json renderers emit the text verbatim — the Txt line ends with the
raw text and the Json segment's text field equals it; the segment value
itself is never changed (all renderers are pure). -/
theorem c4_only_srt_vtt_trim (seg : Segment) (i : Nat) :
    srtFormatSegment seg i =
      srtFormatSegment ⟨seg.start, seg.stop, rustTrimStr seg.text⟩ i ∧
    vttFormatSegment seg =
      vttFormatSegment ⟨seg.start, seg.stop, rustTrimStr seg.text⟩ ∧
    (toJsonSegments [seg]).map (fun s => s.text) = [seg.text] ∧
    seg.text.data <:+ (txtFormatSegment seg).data := by
  refine ⟨?_, ?_, rfl, ?_⟩
  · unfold srtFormatSegment
    have : rustTrimStr seg.text = rustTrimStr (rustTrimStr seg.text) :=
      (rustTrimStr_idem seg.text).symm
    exact congrArg _ this
  · unfold vttFormatSegment
    have : rustTrimStr seg.text = rustTrimStr (rustTrimStr seg.text) :=
      (rustTrimStr_idem seg.text).symm
    exact congrArg _ this
  · exact ⟨("[" ++ formatF64TwoDecimals seg.start ++ " - " ++
      formatF64TwoDecimals seg.stop ++ "]: ").data, rfl⟩

/-! ## C7: declining the overwrite prompt aborts the run -/

theorem extension_inj (f g : OutputFormat) (h : f.extension = g.extension) :
    f = g := by
  revert h
  cases f <;> cases g <;> decide

theorem string_data_append (a b : String) : (a ++ b).data = a.data ++ b.data :=
  rfl

theorem outputPath_inj (outputDir baseName : String) (f g : OutputFormat)
    (h : outputPath outputDir baseName f = outputPath outputDir baseName g) :
    f = g := by
  apply extension_inj
  have hdata := congrArg String.data h
  simp only [outputPath, string_data_append, List.append_assoc] at hdata
  have hcancel := List.append_cancel_left (List.append_cancel_left
    (List.append_cancel_left (List.append_cancel_left hdata)))
  exact congrArg String.mk hcancel

theorem emitLoop_aborts (render : OutputFormat → String)
    (outputDir baseName : String) (prompt : String → Option String) :
    ∀ (formats : List OutputFormat) (fs : String → Option String)
      (out : List String) (f : OutputFormat) (c : String),
      f ∈ formats →
      fs (outputPath outputDir baseName f) = some c →
      (∀ r, prompt (outputPath outputDir baseName f) = some r →
        affirmative r = false) →
      (emitLoop render outputDir baseName false false prompt formats fs out).1 =
        .error .userAborted ∧
      (emitLoop render outputDir baseName false false prompt formats fs out).2.1
        (outputPath outputDir baseName f) = some c := by
  intro formats
  induction formats with
  | nil =>
    intro fs out f c hf hfs hprompt
    exact absurd hf (List.not_mem_nil f)
  | cons g rest ih =>
    intro fs out f c hf hfs hprompt
    simp only [emitLoop, Bool.false_eq_true, if_false]
    by_cases hq : outputPath outputDir baseName g = outputPath outputDir baseName f
    · rw [hq, hfs]
      simp only [Option.isSome_some, and_self, if_true, true_and, if_pos]
      cases hpr : prompt (outputPath outputDir baseName f) with
      | none => exact ⟨rfl, hfs⟩
      | some r =>
        dsimp only
        rw [hprompt r hpr]
        simp only [Bool.false_eq_true, if_false]
        exact ⟨trivial, hfs⟩
    · have hfne : f ≠ g := fun hfg => hq (by rw [hfg])
      have hfrest : f ∈ rest := by
        rcases List.mem_cons.mp hf with hfg | hmem
        · exact absurd hfg.symm hfne.symm
        · exact hmem
      have hfs2 : (fun q => if q = outputPath outputDir baseName g
            then some (render g) else fs q)
          (outputPath outputDir baseName f) = some c := by
        simp only [if_neg (fun hpq => hq (Eq.symm hpq))]
        exact hfs
      by_cases hex : (fs (outputPath outputDir baseName g)).isSome = true
      · rw [if_pos ⟨hex, trivial⟩]
        cases hpr : prompt (outputPath outputDir baseName g) with
        | none => exact ⟨rfl, hfs⟩
        | some r =>
          dsimp only
          by_cases haff : affirmative r = true
          · rw [haff]
            simp only [if_true]
            exact ih _ out f c hfrest hfs2 hprompt
          · rw [Bool.not_eq_true] at haff
            rw [haff]
            simp only [Bool.false_eq_true, if_false]
            exact ⟨trivial, hfs⟩
      · rw [if_neg (fun hand => hex hand.1)]
        exact ih _ out f c hfrest hfs2 hprompt

/-- C7: with stdout mode off and `overwrite_files` off, if the target path of
a requested format already exists and the interactive prompt for that path
fails to read or yields a non-affirmative response, the emission returns
`UserAborted` and that existing file still holds its original contents —
the whole run is aborted, not just that one file. -/
theorem c7_overwrite_declined_aborts (render : OutputFormat → String)
    (title : String) (customName : Option String)
    (formats : List OutputFormat) (outputDir : String)
    (prompt : String → Option String) (fs : String → Option String)
    (f : OutputFormat) (c : String)
    (hf : f ∈ formats)
    (hfs : fs (outputPath outputDir (getOutputName title customName) f) = some c)
    (hprompt : ∀ r,
      prompt (outputPath outputDir (getOutputName title customName) f) = some r →
      affirmative r = false) :
    (outputTranscript render title customName formats outputDir false false
      prompt fs).1 = .error .userAborted ∧
    (outputTranscript render title customName formats outputDir false false
      prompt fs).2.1
      (outputPath outputDir (getOutputName title customName) f) = some c := by
  unfold outputTranscript
  exact emitLoop_aborts render outputDir (getOutputName title customName)
    prompt formats fs [] f c hf hfs hprompt

theorem c7_overwrite_declined_aborts_witness :
    (outputTranscript (fun _ => "new") "video" none [.txt] "out" false false
      (fun _ => some "n")
      (fun q => if q = "out/video.txt" then some "old" else none)).1 =
        .error .userAborted ∧
    (outputTranscript (fun _ => "new") "video" none [.txt] "out" false false
      (fun _ => some "n")
      (fun q => if q = "out/video.txt" then some "old" else none)).2.1
      (outputPath "out" (getOutputName "video" none) .txt) = some "old" :=
  c7_overwrite_declined_aborts (fun _ => "new") "video" none [.txt] "out"
    (fun _ => some "n")
    (fun q => if q = "out/video.txt" then some "old" else none)
    .txt "old" (by decide) (by decide)
    (fun r hr => by cases hr; decide)

/-! ## C8: cancellation checkpoints return success -/

/-- C8: at each of the two cancellation checkpoints — after acquisition and
after transcription — an observed shutdown flag makes the pipeline return
`Ok` while no later stage (transcription/emission/keep-audio at the first
checkpoint; emission/keep-audio at the second) is run. -/
theorem c8_cancellation_quiet_success
    (acquire : Except Error (String × String)) (flag1 : Bool)
    (transcribeF : String → String → Except Error Transcript) (flag2 : Bool)
    (emitF : Transcript → Except Error Unit) (keepAudioFlag : Bool)
    (copyAudio : Except Error Unit) :
    (∀ a ti, acquire = .ok (a, ti) → flag1 = true →
      processPipeline acquire flag1 transcribeF flag2 emitF keepAudioFlag
          copyAudio = (.ok (), [Stage.acquisition]) ∧
      Stage.transcription ∉ (processPipeline acquire flag1 transcribeF flag2
          emitF keepAudioFlag copyAudio).2 ∧
      Stage.emission ∉ (processPipeline acquire flag1 transcribeF flag2
          emitF keepAudioFlag copyAudio).2 ∧
      Stage.keepAudio ∉ (processPipeline acquire flag1 transcribeF flag2
          emitF keepAudioFlag copyAudio).2) ∧
    (∀ a ti t, acquire = .ok (a, ti) → flag1 = false →
      transcribeF a ti = .ok t → flag2 = true →
      processPipeline acquire flag1 transcribeF flag2 emitF keepAudioFlag
          copyAudio = (.ok (), [Stage.acquisition, Stage.transcription]) ∧
      Stage.emission ∉ (processPipeline acquire flag1 transcribeF flag2
          emitF keepAudioFlag copyAudio).2 ∧
      Stage.keepAudio ∉ (processPipeline acquire flag1 transcribeF flag2
          emitF keepAudioFlag copyAudio).2) := by
  constructor
  · intro a ti ha hf1
    subst ha
    subst hf1
    have hres : processPipeline (.ok (a, ti)) true transcribeF flag2 emitF
        keepAudioFlag copyAudio = (.ok (), [Stage.acquisition]) := rfl
    rw [hres]
    refine ⟨rfl, ?_, ?_, ?_⟩ <;> decide
  · intro a ti t ha hf1 htr hf2
    subst ha
    subst hf1
    subst hf2
    have hres : processPipeline (.ok (a, ti)) false transcribeF true emitF
        keepAudioFlag copyAudio =
        (.ok (), [Stage.acquisition, Stage.transcription]) := by
      simp [processPipeline, htr]
    rw [hres]
    refine ⟨rfl, ?_, ?_⟩ <;> decide

theorem c8_cancellation_quiet_success_witness :
    (processPipeline (.ok ("audio.mp3", "video")) true
        (fun _ _ => .ok ⟨[], ⟨"video", "input.mp4", none, "small", none⟩⟩)
        false (fun _ => .ok ()) false (.ok ()) =
      (.ok (), [Stage.acquisition]) ∧
      Stage.transcription ∉ (processPipeline (.ok ("audio.mp3", "video")) true
        (fun _ _ => .ok ⟨[], ⟨"video", "input.mp4", none, "small", none⟩⟩)
        false (fun _ => .ok ()) false (.ok ())).2 ∧
      Stage.emission ∉ (processPipeline (.ok ("audio.mp3", "video")) true
        (fun _ _ => .ok ⟨[], ⟨"video", "input.mp4", none, "small", none⟩⟩)
        false (fun _ => .ok ()) false (.ok ())).2 ∧
      Stage.keepAudio ∉ (processPipeline (.ok ("audio.mp3", "video")) true
        (fun _ _ => .ok ⟨[], ⟨"video", "input.mp4", none, "small", none⟩⟩)
        false (fun _ => .ok ()) false (.ok ())).2) ∧
    (processPipeline (.ok ("audio.mp3", "video")) false
        (fun _ _ => .ok ⟨[], ⟨"video", "input.mp4", none, "small", none⟩⟩)
        true (fun _ => .ok ()) false (.ok ()) =
      (.ok (), [Stage.acquisition, Stage.transcription]) ∧
      Stage.emission ∉ (processPipeline (.ok ("audio.mp3", "video")) false
        (fun _ _ => .ok ⟨[], ⟨"video", "input.mp4", none, "small", none⟩⟩)
        true (fun _ => .ok ()) false (.ok ())).2 ∧
      Stage.keepAudio ∉ (processPipeline (.ok ("audio.mp3", "video")) false
        (fun _ _ => .ok ⟨[], ⟨"video", "input.mp4", none, "small", none⟩⟩)
        true (fun _ => .ok ()) false (.ok ())).2) :=
  ⟨(c8_cancellation_quiet_success (.ok ("audio.mp3", "video")) true
      (fun _ _ => .ok ⟨[], ⟨"video", "input.mp4", none, "small", none⟩⟩)
      false (fun _ => .ok ()) false (.ok ())).1 "audio.mp3" "video" rfl rfl,
    (c8_cancellation_quiet_success (.ok ("audio.mp3", "video")) false
      (fun _ _ => .ok ⟨[], ⟨"video", "input.mp4", none, "small", none⟩⟩)
      true (fun _ => .ok ()) false (.ok ())).2 "audio.mp3" "video"
      ⟨[], ⟨"video", "input.mp4", none, "small", none⟩⟩ rfl rfl rfl rfl⟩

/-! ## C9: rendering the empty segment list

The metadata fields are emitted verbatim into the VTT NOTE blocks, so a
field containing `" --> "` puts the cue arrow into the output even with no
segments — the unconditional no-arrow claim is false.  The corrected
statement: the empty-list output contains `" --> "` only when one of the
verbatim fields (title, source, language, model) contains it.  The proof
decomposes any arrow occurrence over the concatenation: the arrow contains
no newline, and every literal piece of the output ends in `'\n'` while every
piece following a field starts with `'\n'`, so an occurrence can never
straddle a boundary. -/

theorem no_gt_in_vttFormatTimestamp (d : ℚ) :
    '>' ∉ (vttFormatTimestamp d).data := by
  intro hmem
  have hdata : (vttFormatTimestamp d).data =
      renderTs ((⌊d⌋).toNat / 3600) ((⌊d⌋).toNat % 3600 / 60)
        ((⌊d⌋).toNat % 60)
        (min (⌊(d - ⌊d⌋) * 1000 + 1/2⌋).toNat 999) '.' := rfl
  rw [hdata] at hmem
  rcases mem_renderTs _ _ _ _ _ '>' hmem with h | h | h
  · exact absurd h (by decide)
  · exact absurd h (by decide)
  · exact absurd h (by decide)

theorem no_arrow_of_no_gt (C : List Char) (hng : '>' ∉ C) :
    ¬ " --> ".data <:+: C :=
  fun h => hng (h.sublist.subset (by decide))

/-- An occurrence of `l` inside `a ++ b` lies inside `a`, inside `b`, or
overlaps the boundary with a nonempty suffix of `a` and a nonempty front part of
`b`. -/
theorem append_overlap_cases {α : Type} {l a b : List α} (h : l <:+: a ++ b) :
    l <:+: a ∨ l <:+: b ∨
      ∃ l₁ l₂, l₁ ++ l₂ = l ∧ l₁ ≠ [] ∧ l₂ ≠ [] ∧ l₁ <:+ a ∧ l₂ <+: b := by
  obtain ⟨s, t, hst⟩ := h
  rw [List.append_assoc] at hst
  rcases List.append_eq_append_iff.mp hst with ⟨a2, ha, hb⟩ | ⟨c2, _, hd⟩
  · rcases List.append_eq_append_iff.mp hb with ⟨w, hw1, _⟩ | ⟨w, hw1, hw2⟩
    · left
      exact ⟨s, w, by rw [ha, hw1, List.append_assoc]⟩
    · by_cases ha2 : a2 = []
      · right; left
        subst ha2
        rw [List.nil_append] at hw1
        exact ⟨[], t, by rw [List.nil_append, hw1, hw2]⟩
      · by_cases hw : w = []
        · left
          subst hw
          rw [List.append_nil] at hw1
          exact ⟨s, [], by rw [List.append_nil, hw1, ha]⟩
        · right; right
          exact ⟨a2, w, hw1.symm, ha2, hw, ⟨s, ha.symm⟩, ⟨t, hw2.symm⟩⟩
  · right; left
    exact ⟨c2, t, by rw [hd, List.append_assoc]⟩

theorem head?_eq_of_leading {l b : List Char} (h : l <+: b) (hne : l ≠ []) :
    l.head? = b.head? := by
  obtain ⟨r, hr⟩ := h
  rw [← hr]
  exact (List.head?_append_of_ne_nil l hne).symm

theorem getLast?_eq_of_trailing {l a : List Char} (h : l <:+ a)
    (hne : l ≠ []) : l.getLast? = a.getLast? := by
  obtain ⟨r, hr⟩ := h
  rw [← hr, ← List.head?_reverse, ← List.head?_reverse, List.reverse_append]
  exact (List.head?_append_of_ne_nil l.reverse (by simpa using hne)).symm

theorem mem_of_getLast?_eq {a : Char} {l : List Char}
    (h : l.getLast? = some a) : a ∈ l := by
  have h2 : l.reverse.head? = some a := by rw [List.head?_reverse, h]
  exact List.mem_reverse.mp (List.mem_of_mem_head? (Option.mem_def.mpr h2))

/-- Step over a literal piece that ends in `'\n'` and contains no `'>'`: an
arrow occurrence must lie entirely in the remainder. -/
theorem arrow_step_literal (C R : List Char) (hlast : C.getLast? = some '\n')
    (hng : '>' ∉ C) (h : " --> ".data <:+: C ++ R) :
    " --> ".data <:+: R := by
  rcases append_overlap_cases h with h1 | h1 | ⟨l₁, l₂, heq, hne1, _, hsuf, _⟩
  · exact absurd h1 (no_arrow_of_no_gt C hng)
  · exact h1
  · exfalso
    have hl : l₁.getLast? = some '\n' := by
      rw [getLast?_eq_of_trailing hsuf hne1, hlast]
    have hmem : '\n' ∈ " --> ".data := by
      rw [← heq]
      exact List.mem_append.mpr (Or.inl (mem_of_getLast?_eq hl))
    exact absurd hmem (by decide)

/-- Step over a field piece followed by a remainder that starts with `'\n'`:
if the field itself contains no arrow, an arrow occurrence must lie entirely
in the remainder. -/
theorem arrow_step_field (C R : List Char) (hhead : R.head? = some '\n')
    (hC : ¬ " --> ".data <:+: C) (h : " --> ".data <:+: C ++ R) :
    " --> ".data <:+: R := by
  rcases append_overlap_cases h with h1 | h1 | ⟨l₁, l₂, heq, _, hne2, _, hpre⟩
  · exact absurd h1 hC
  · exact h1
  · exfalso
    have hl : l₂.head? = some '\n' := by
      rw [head?_eq_of_leading hpre hne2, hhead]
    have hmem : '\n' ∈ " --> ".data := by
      rw [← heq]
      exact List.mem_append.mpr
        (Or.inr (List.mem_of_mem_head? (Option.mem_def.mpr hl)))
    exact absurd hmem (by decide)

theorem no_arrow_in_duration (o : Option ℚ) :
    ¬ " --> ".data <:+:
      (match o with
       | some d => vttFormatTimestamp d
       | none => "unknown").data := by
  cases o with
  | none => exact no_arrow_of_no_gt _ (by decide)
  | some d => exact no_arrow_of_no_gt _ (no_gt_in_vttFormatTimestamp d)

/-- C9 counterexample: the claim's unconditional "no `\" --> \"` substring"
is false — a metadata title containing the cue arrow is copied verbatim into
the `NOTE Title` block, so the VTT output for the empty segment list
contains `" --> "`. -/
theorem c9_arrow_in_metadata_counterexample :
    " --> ".data <:+:
      (vttFormatTranscript [] ⟨"a --> b", "in.mp4", none, "m", none⟩).data :=
  ⟨"WEBVTT\n\nNOTE Title\na".data,
    ("b\n\nNOTE Source\nin.mp4\n\nNOTE Duration\nunknown" ++
      "\n\nNOTE Language\nunknown\n\nNOTE Model\nm").data,
    by decide⟩

/-- C9 amended: on the empty segment list the Txt and Srt renderers return
the empty string, the Vtt renderer returns exactly the `WEBVTT` header plus
the five metadata NOTE blocks, the Json output's transcript field is the
empty array, and the Vtt output contains no `" --> "` substring unless one
of the verbatim metadata text fields (title, source, language, model)
itself contains `" --> "`. -/
theorem c9_empty_transcript_renders (md : Metadata) :
    txtFormatTranscript [] = "" ∧
    srtFormatTranscript [] = "" ∧
    vttFormatTranscript [] md = "WEBVTT\n\n" ++ vttFormatMetadata md ∧
    (¬ " --> ".data <:+: md.title.data →
      ¬ " --> ".data <:+: md.source.data →
      ¬ " --> ".data <:+: (md.language.getD "unknown").data →
      ¬ " --> ".data <:+: md.model.data →
      ¬ (" --> ".data <:+: (vttFormatTranscript [] md).data)) ∧
    (jsonFormatOutput [] md).transcript = [] := by
  refine ⟨rfl, rfl, rfl, ?_, rfl⟩
  intro h1 h2 h4 h5 hinf
  have hvtt : vttFormatTranscript [] md =
      "WEBVTT\n\n" ++ vttFormatMetadata md := rfl
  have hm : vttFormatMetadata md =
      ("NOTE Title\n" ++ md.title) ++ "\n\n" ++
        (("NOTE Source\n" ++ md.source) ++ "\n\n" ++
          (("NOTE Duration\n" ++ (match md.duration with
              | some d => vttFormatTimestamp d
              | none => "unknown")) ++ "\n\n" ++
            (("NOTE Language\n" ++ md.language.getD "unknown") ++ "\n\n" ++
              ("NOTE Model\n" ++ md.model)))) := rfl
  have hstring : (vttFormatTranscript [] md).data =
      "WEBVTT\n\n".data ++ ("NOTE Title\n".data ++ (md.title.data ++
        ("\n\n".data ++ ("NOTE Source\n".data ++ (md.source.data ++
          ("\n\n".data ++ ("NOTE Duration\n".data ++
            ((match md.duration with
              | some d => vttFormatTimestamp d
              | none => "unknown").data ++
            ("\n\n".data ++ ("NOTE Language\n".data ++
              ((md.language.getD "unknown").data ++
                ("\n\n".data ++ ("NOTE Model\n".data ++
                  md.model.data))))))))))))) := by
    rw [hvtt, hm]
    simp only [string_data_append, List.append_assoc]
  rw [hstring] at hinf
  have s1 := arrow_step_literal _ _ (by decide) (by decide) hinf
  have s2 := arrow_step_literal _ _ (by decide) (by decide) s1
  have s3 := arrow_step_field _ _ (by rfl) h1 s2
  have s4 := arrow_step_literal _ _ (by decide) (by decide) s3
  have s5 := arrow_step_literal _ _ (by decide) (by decide) s4
  have s6 := arrow_step_field _ _ (by rfl) h2 s5
  have s7 := arrow_step_literal _ _ (by decide) (by decide) s6
  have s8 := arrow_step_literal _ _ (by decide) (by decide) s7
  have s9 := arrow_step_field _ _ (by rfl) (no_arrow_in_duration md.duration) s8
  have s10 := arrow_step_literal _ _ (by decide) (by decide) s9
  have s11 := arrow_step_literal _ _ (by decide) (by decide) s10
  have s12 := arrow_step_field _ _ (by rfl) h4 s11
  have s13 := arrow_step_literal _ _ (by decide) (by decide) s12
  have s14 := arrow_step_literal _ _ (by decide) (by decide) s13
  exact absurd s14 h5

theorem c9_empty_transcript_renders_witness :
    ¬ (" --> ".data <:+:
      (vttFormatTranscript []
        ⟨"Test Video", "test.mp4", some (mkRat 12345 100), "base",
          some "en"⟩).data) :=
  (c9_empty_transcript_renders
    ⟨"Test Video", "test.mp4", some (mkRat 12345 100), "base",
      some "en"⟩).2.2.2.1
    (no_arrow_of_no_gt _ (by decide)) (no_arrow_of_no_gt _ (by decide))
    (no_arrow_of_no_gt _ (by decide)) (no_arrow_of_no_gt _ (by decide))
